import Mathlib

/-!
Verification of the SWD (Serial Wire Debug) protocol engine in
`src/testjig/production/arm_debug.cpp` (class `ARMDebug`).

The C++ code is shallowly embedded as follows.

* Machine integers (`uint32_t`, `unsigned`) are modelled as `Nat`; wherever
  32-bit wraparound matters (the post-decrement of the `unsigned retries`
  counters, `accessPort << 24`, `addr++`) the wrap is made explicit.
* The wire (the two GPIO lines plus the attached target) is modelled as an
  environment that supplies the result of each `wireRead` call; everything
  the probe does on the wire is recorded in a trace of `WireEvent`s.
* `dpWrite` / `dpRead` contain `do ... while` retry loops whose termination
  is part of what is being verified, so they are embedded with an explicit
  fuel parameter: `none` means the loop did not finish within `fuel`
  iterations.
* The AP layer and the memory facade observe the DP layer only through its
  boolean result (and, for reads, the delivered word), so they are embedded
  over that interface: an oracle assigns an outcome to each DP transaction
  in program order, and every DP transaction issued is recorded in a trace
  of `DPTxn`s.
-/

/-- `2^32`, the modulus of the C++ `uint32_t` / `unsigned` arithmetic. -/
def U32 : Nat := 2 ^ 32

/-- Post-decrement of a 32-bit unsigned counter: `r--` evaluated for its
side effect, i.e. the new value of `r`, with wraparound at zero. -/
def udec (r : Nat) : Nat := if r = 0 then U32 - 1 else r - 1

/-- `ARMDebug::evenParity` (arm_debug.cpp:307-315): successive XOR-folding
of a 32-bit word down to one bit.  The C++ returns `bool`; for inputs
below `2^32` the folded value is already 0 or 1, and it is that value
(the `bool` as promoted back to an integer) that we return. -/
def evenParity (word : Nat) : Nat :=
  let w1 := (word &&& 0xFFFF) ^^^ (word >>> 16)
  let w2 := (w1 &&& 0xFF) ^^^ (w1 >>> 8)
  let w3 := (w2 &&& 0xF) ^^^ (w2 >>> 4)
  let w4 := (w3 &&& 0x3) ^^^ (w3 >>> 2)
  (w4 &&& 0x1) ^^^ (w4 >>> 1)

/-- Population count (number of set bits) of a natural number; the
reference definition the spec compares `evenParity` against. -/
def popCount (n : Nat) : Nat :=
  if h : n = 0 then 0 else popCount (n / 2) + n % 2
decreasing_by exact Nat.div_lt_self (Nat.pos_of_ne_zero h) (by omega)

/-- `ARMDebug::packHeader` (arm_debug.cpp:294-305).  The C++ `bool`
arguments are promoted to 0/1 before the shifts, and the four-way
`bool` XOR computing the parity bit acts on those 0/1 values. -/
def packHeader (addr : Nat) (APnDP RnW : Bool) : Nat :=
  let a2 := (addr >>> 2) &&& 1
  let a3 := (addr >>> 3) &&& 1
  let parity := APnDP.toNat ^^^ RnW.toNat ^^^ a2 ^^^ a3
  (1 <<< 0) |||
  (APnDP.toNat <<< 1) |||
  (RnW.toNat <<< 2) |||
  ((addr &&& 0xC) <<< 1) |||
  (parity <<< 5) |||
  (1 <<< 7)

/- ------------------------------------------------------------------ -/
/- Theorems about popCount and evenParity                              -/
/- ------------------------------------------------------------------ -/

theorem popCount_step (n : Nat) : popCount n = popCount (n / 2) + n % 2 := by
  by_cases h : n = 0
  · subst h; rw [popCount]; simp
  · rw [popCount]; simp [h]

theorem popCount_zero : popCount 0 = 0 := by rw [popCount]; simp

/-- Splitting a number at bit `k` splits its population count. -/
theorem popCount_append (k : Nat) :
    ∀ lo hi : Nat, lo < 2 ^ k → popCount (lo + 2 ^ k * hi) = popCount lo + popCount hi := by
  induction k with
  | zero =>
    intro lo hi hlo
    have : lo = 0 := by omega
    subst this
    simp [popCount_zero]
  | succ k ih =>
    intro lo hi hlo
    have hpow : 2 ^ (k + 1) * hi = 2 * (2 ^ k * hi) := by ring
    rw [popCount_step (lo + 2 ^ (k + 1) * hi), hpow]
    have hmod : (lo + 2 * (2 ^ k * hi)) % 2 = lo % 2 := by omega
    have hdiv : (lo + 2 * (2 ^ k * hi)) / 2 = lo / 2 + 2 ^ k * hi := by omega
    have hlo2 : lo / 2 < 2 ^ k := by
      have h2 : (2 : Nat) ^ (k + 1) = 2 * 2 ^ k := by ring
      omega
    rw [hmod, hdiv, ih (lo / 2) hi hlo2, popCount_step lo]
    ring

theorem xor_div_two (a b : Nat) : (a ^^^ b) / 2 = a / 2 ^^^ b / 2 := by
  have h1 : ∀ x : Nat, x / 2 = x >>> 1 := by
    intro x; rw [Nat.shiftRight_eq_div_pow]
  rw [h1, h1, h1]
  apply Nat.eq_of_testBit_eq
  intro i
  simp [Nat.testBit_shiftRight, Nat.testBit_xor]

theorem xor_mod_two (a b : Nat) : (a ^^^ b) % 2 = (a % 2 + b % 2) % 2 := by
  have h : (a ^^^ b) &&& 1 = (a &&& 1) ^^^ (b &&& 1) := Nat.and_xor_distrib_right
  rw [Nat.and_one_is_mod, Nat.and_one_is_mod, Nat.and_one_is_mod] at h
  rw [h]
  rcases Nat.mod_two_eq_zero_or_one a with ha | ha <;>
    rcases Nat.mod_two_eq_zero_or_one b with hb | hb <;>
      rw [ha, hb] <;> decide

/-- Parity of the population count is a XOR homomorphism. -/
theorem popCount_xor (a : Nat) :
    ∀ b : Nat, popCount (a ^^^ b) % 2 = (popCount a + popCount b) % 2 := by
  induction a using Nat.strong_induction_on with
  | _ a ih =>
    intro b
    by_cases ha : a = 0
    · subst ha; simp [Nat.zero_xor, popCount_zero]
    · have hlt : a / 2 < a := Nat.div_lt_self (Nat.pos_of_ne_zero ha) (by omega)
      have h1 : popCount (a ^^^ b) = popCount (a / 2 ^^^ b / 2) + (a % 2 + b % 2) % 2 := by
        rw [popCount_step (a ^^^ b), xor_div_two, xor_mod_two]
      have h2 := ih (a / 2) hlt (b / 2)
      have h3 := popCount_step a
      have h4 := popCount_step b
      omega

/-- One XOR-folding step halves the width and preserves the parity of the
population count. -/
theorem parity_fold (k w : Nat) (h : w < 2 ^ (2 * k)) :
    (w &&& (2 ^ k - 1)) ^^^ (w >>> k) < 2 ^ k ∧
      popCount ((w &&& (2 ^ k - 1)) ^^^ (w >>> k)) % 2 = popCount w % 2 := by
  have hmask : w &&& (2 ^ k - 1) = w % 2 ^ k := by
    apply Nat.eq_of_testBit_eq
    intro i
    rw [Nat.testBit_and, Nat.testBit_two_pow_sub_one, Nat.testBit_mod_two_pow]
    cases Nat.testBit w i <;> simp
  have hshift : w >>> k = w / 2 ^ k := Nat.shiftRight_eq_div_pow w k
  have hlo : w % 2 ^ k < 2 ^ k := Nat.mod_lt _ (Nat.pos_pow_of_pos k (by omega))
  have hhi : w / 2 ^ k < 2 ^ k := by
    apply Nat.div_lt_of_lt_mul
    have : 2 ^ (2 * k) = 2 ^ k * 2 ^ k := by rw [← pow_add]; ring_nf
    omega
  constructor
  · rw [hmask, hshift]
    exact Nat.xor_lt_two_pow hlo hhi
  · rw [hmask, hshift]
    have hsplit : w = w % 2 ^ k + 2 ^ k * (w / 2 ^ k) := by
      have := Nat.div_add_mod w (2 ^ k)
      omega
    calc popCount (w % 2 ^ k ^^^ w / 2 ^ k) % 2
        = (popCount (w % 2 ^ k) + popCount (w / 2 ^ k)) % 2 := popCount_xor _ _
      _ = popCount (w % 2 ^ k + 2 ^ k * (w / 2 ^ k)) % 2 := by
          rw [popCount_append k _ _ hlo]
      _ = popCount w % 2 := by rw [← hsplit]

/-- C4.  `evenParity` agrees with the population-count-mod-2 definition on
every 32-bit word: it is 1 exactly when the word has an odd number of set
bits. -/
theorem evenParity_eq_popCount_mod_two (w : Nat) (h : w < 2 ^ 32) :
    evenParity w = popCount w % 2 := by
  have hA := parity_fold 16 w h
  have hB := parity_fold 8 _ hA.1
  have hC := parity_fold 4 _ hB.1
  have hD := parity_fold 2 _ hC.1
  have hE := parity_fold 1 _ hD.1
  have key : ∀ t : Nat, t < 2 → popCount t % 2 = popCount w % 2 →
      t = popCount w % 2 := by
    intro t h2 hp
    have hpt : popCount t = t := by
      interval_cases t
      · exact popCount_zero
      · rw [popCount_step]; norm_num [popCount_zero]
    omega
  exact key _ hE.1 (hE.2.trans (hD.2.trans (hC.2.trans (hB.2.trans hA.2))))

/-- Witness for C4 at a concrete word. -/
theorem evenParity_eq_popCount_mod_two_witness :
    0xDEADBEEF < 2 ^ 32 ∧ evenParity 0xDEADBEEF = popCount 0xDEADBEEF % 2 :=
  ⟨by norm_num, evenParity_eq_popCount_mod_two 0xDEADBEEF (by norm_num)⟩

/- ------------------------------------------------------------------ -/
/- Theorems about packHeader                                           -/
/- ------------------------------------------------------------------ -/

theorem and_mask_mod_sixteen (x m : Nat) (hm : m < 16) :
    x &&& m = (x % 16) &&& m := by
  apply Nat.eq_of_testBit_eq
  intro i
  have h16 : (16 : Nat) = 2 ^ 4 := by norm_num
  rw [Nat.testBit_and, Nat.testBit_and, h16, Nat.testBit_mod_two_pow]
  by_cases hi : i < 4
  · simp [hi]
  · have hmz : m.testBit i = false := by
      apply Nat.testBit_lt_two_pow
      calc m < 16 := hm
        _ = 2 ^ 4 := by norm_num
        _ ≤ 2 ^ i := Nat.pow_le_pow_right (by omega) (by omega)
    simp [hmz]

theorem packHeader_mod_sixteen (addr : Nat) (a r : Bool) :
    packHeader addr a r = packHeader (addr % 16) a r := by
  unfold packHeader
  have e1 : (addr >>> 2) &&& 1 = ((addr % 16) >>> 2) &&& 1 := by
    simp only [Nat.and_one_is_mod, Nat.shiftRight_eq_div_pow]
    have h4 : (2 : Nat) ^ 2 = 4 := by norm_num
    rw [h4]
    omega
  have e2 : (addr >>> 3) &&& 1 = ((addr % 16) >>> 3) &&& 1 := by
    simp only [Nat.and_one_is_mod, Nat.shiftRight_eq_div_pow]
    have h8 : (2 : Nat) ^ 3 = 8 := by norm_num
    rw [h8]
    omega
  have e3 : addr &&& 0xC = (addr % 16) &&& 0xC :=
    and_mask_mod_sixteen addr 0xC (by norm_num)
  rw [e1, e2, e3]

/-- C5.  `packHeader` produces the SWD request header bit layout:
start bit, APnDP, RnW, address bits 2-3, parity over those four,
a zero stop bit and a one park bit. -/
theorem packHeader_bits (addr : Nat) (a r : Bool) :
    (packHeader addr a r).testBit 0 = true ∧
    (packHeader addr a r).testBit 1 = a ∧
    (packHeader addr a r).testBit 2 = r ∧
    (packHeader addr a r).testBit 3 = addr.testBit 2 ∧
    (packHeader addr a r).testBit 4 = addr.testBit 3 ∧
    (packHeader addr a r).testBit 5 =
      (xor (xor a r) (xor (addr.testBit 2) (addr.testBit 3))) ∧
    (packHeader addr a r).testBit 6 = false ∧
    (packHeader addr a r).testBit 7 = true := by
  rw [packHeader_mod_sixteen]
  have hb2 : addr.testBit 2 = (addr % 16).testBit 2 := by
    have h16 : (16 : Nat) = 2 ^ 4 := by norm_num
    rw [h16, Nat.testBit_mod_two_pow]
    simp
  have hb3 : addr.testBit 3 = (addr % 16).testBit 3 := by
    have h16 : (16 : Nat) = 2 ^ 4 := by norm_num
    rw [h16, Nat.testBit_mod_two_pow]
    simp
  rw [hb2, hb3]
  have hm : addr % 16 < 16 := Nat.mod_lt _ (by norm_num)
  revert hm
  generalize addr % 16 = m
  revert a r m
  decide

/- ------------------------------------------------------------------ -/
/- Wire-level model of the DP transaction layer                        -/
/- ------------------------------------------------------------------ -/

/-- One primitive action of the probe on the wire, in program order:
`wireWrite data nBits`, `wireRead nBits` (with the value the environment
delivered), and the two turnarounds. -/
inductive WireEvent where
  | wWrite (data : Nat) (nBits : Nat)
  | wRead (nBits : Nat) (result : Nat)
  | wReadTrn
  | wWriteTrn
deriving DecidableEq, Repr

/-- The target side of the wire: what each `wireRead` of attempt `i`
returns.  `ack i` feeds the 3-bit acknowledge read, `rdata i` the 32-bit
data read and `rparity i` the 1-bit parity read of a successful read
transaction; each is masked to its width at the read site, because a
real `wireRead n` assembles exactly `n` sampled bits. -/
structure WireEnv where
  ack : Nat → Nat
  rdata : Nat → Nat
  rparity : Nat → Nat

/-- Which return path of `dpWrite` / `dpRead` produced the result;
the paths are distinguished in the C++ by their log diagnostics. -/
inductive WOutcome where
  | ok
  | waitTimeout
  | fault
  | protocolError
  | parityError
deriving DecidableEq, Repr

/-- `ARMDebug::dpWrite` (arm_debug.cpp:202-243), embedded with explicit
fuel: one unit of fuel per iteration of the `do ... while (retries--)`
loop, `none` when the loop has not finished within `fuel` iterations.
`att` is the index of the current attempt (0 on entry), `retries` the
current value of the `unsigned retries` counter (10 on entry).

The WAIT case performs `retries--` (`udec`), then the loop condition
`while (retries--)` tests that value and post-decrements it again; the
loop exits to the WAIT-timeout return only if the tested value is 0. -/
def dpWriteLoop (env : WireEnv) (addr : Nat) (APnDP : Bool) (data : Nat) :
    Nat → Nat → Nat → Option (Bool × WOutcome × List WireEvent)
  | _, _, 0 => none
  | att, retries, fuel + 1 =>
    let a := env.ack att % 8
    let pre : List WireEvent :=
      [.wWrite (packHeader addr APnDP false) 8, .wReadTrn, .wRead 3 a, .wWriteTrn]
    if a = 1 then
      some (true, .ok,
        pre ++ [.wWrite data 32, .wWrite (evenParity data) 1, .wWrite 0 8])
    else if a = 2 then
      let r1 := udec retries
      if r1 = 0 then
        some (false, .waitTimeout, pre ++ [.wWrite 0 8])
      else
        (dpWriteLoop env addr APnDP data (att + 1) (udec r1) fuel).map
          (fun res => (res.1, res.2.1, pre ++ [.wWrite 0 8] ++ res.2.2))
    else if a = 4 then
      some (false, .fault, pre ++ [.wWrite 0 8])
    else
      some (false, .protocolError, pre ++ [.wWrite 0 8])

/-- `ARMDebug::dpWrite` top level: `retries` starts at 10. -/
def dpWrite (env : WireEnv) (addr : Nat) (APnDP : Bool) (data : Nat)
    (fuel : Nat) : Option (Bool × WOutcome × List WireEvent) :=
  dpWriteLoop env addr APnDP data 0 10 fuel

/-- `ARMDebug::dpRead` (arm_debug.cpp:245-292), embedded like
`dpWriteLoop`.  `dataRef` is the current value of the caller's variable
bound to the `uint32_t &data` out-parameter; the returned `Nat` is its
value when the call returns.  On a successful acknowledge the received
word is stored into the out-parameter before the parity check, so a
parity failure leaves the received word in it. -/
def dpReadLoop (env : WireEnv) (dataRef : Nat) (addr : Nat) (APnDP : Bool) :
    Nat → Nat → Nat → Option (Bool × Nat × WOutcome × List WireEvent)
  | _, _, 0 => none
  | att, retries, fuel + 1 =>
    let a := env.ack att % 8
    let pre : List WireEvent :=
      [.wWrite (packHeader addr APnDP true) 8, .wReadTrn, .wRead 3 a]
    if a = 1 then
      let d := env.rdata att % U32
      let p := env.rparity att % 2
      if p ≠ evenParity d then
        some (false, d, .parityError,
          pre ++ [.wRead 32 d, .wRead 1 p, .wWriteTrn, .wWrite 0 8])
      else
        some (true, d, .ok,
          pre ++ [.wRead 32 d, .wRead 1 p, .wWriteTrn, .wWrite 0 8])
    else if a = 2 then
      let r1 := udec retries
      if r1 = 0 then
        some (false, dataRef, .waitTimeout, pre ++ [.wWriteTrn, .wWrite 0 8])
      else
        (dpReadLoop env dataRef addr APnDP (att + 1) (udec r1) fuel).map
          (fun res => (res.1, res.2.1, res.2.2.1,
            pre ++ [.wWriteTrn, .wWrite 0 8] ++ res.2.2.2))
    else if a = 4 then
      some (false, dataRef, .fault, pre ++ [.wWriteTrn, .wWrite 0 8])
    else
      some (false, dataRef, .protocolError, pre ++ [.wWriteTrn, .wWrite 0 8])

/-- `ARMDebug::dpRead` top level: `retries` starts at 10. -/
def dpRead (env : WireEnv) (dataRef : Nat) (addr : Nat) (APnDP : Bool)
    (fuel : Nat) : Option (Bool × Nat × WOutcome × List WireEvent) :=
  dpReadLoop env dataRef addr APnDP 0 10 fuel

/-- An environment whose acknowledge is WAIT (2) on every attempt. -/
def allWaitEnv : WireEnv := ⟨fun _ => 2, fun _ => 0, fun _ => 0⟩

/-- An environment whose acknowledge is WAIT on attempts 1..9 (indices
0..8) and OK (1) from attempt 10 (index 9) on, with data 0 and the
matching parity bit 0. -/
def wait9Env : WireEnv := ⟨fun i => if i < 9 then 2 else 1, fun _ => 0, fun _ => 0⟩

/-- Did the embedded call finish and succeed? -/
def writeSucceeded : Option (Bool × WOutcome × List WireEvent) → Bool
  | some (b, _, _) => b
  | none => false

/-- Did the embedded call finish and succeed? -/
def readSucceeded : Option (Bool × Nat × WOutcome × List WireEvent) → Bool
  | some (b, _, _, _) => b
  | none => false

/- ------------------------------------------------------------------ -/
/- C1: the WAIT retry budget                                           -/
/- ------------------------------------------------------------------ -/

theorem udec_ne_zero_of_even (r : Nat) (h : r % 2 = 0) : udec r ≠ 0 := by
  have hU : U32 = 4294967296 := by norm_num [U32]
  unfold udec
  split
  · omega
  · omega

theorem udec_udec_even (r : Nat) (h : r % 2 = 0) : udec (udec r) % 2 = 0 := by
  have hU : U32 = 4294967296 := by norm_num [U32]
  unfold udec
  split
  · split <;> omega
  · split <;> omega

/-- Under an all-WAIT environment the `dpWrite` retry loop never
terminates, for any amount of fuel, whenever the current `retries`
value is even (as it is on entry, where it is 10): the double
post-decrement only ever tests odd values against 0 and the unsigned
counter wraps around instead of stopping. -/
theorem dpWriteLoop_allWait_none (addr : Nat) (ap : Bool) (d : Nat) :
    ∀ fuel att r, r % 2 = 0 →
      dpWriteLoop allWaitEnv addr ap d att r fuel = none := by
  intro fuel
  induction fuel with
  | zero => intro att r _; rfl
  | succ fuel ih =>
    intro att r h
    have h1 : udec r ≠ 0 := udec_ne_zero_of_even r h
    have h2 : udec (udec r) % 2 = 0 := udec_udec_even r h
    have ha : allWaitEnv.ack att % 8 = 2 := rfl
    simp only [dpWriteLoop, ha]
    norm_num
    rw [if_neg h1, ih (att + 1) (udec (udec r)) h2]
    rfl

/-- Same for the `dpRead` retry loop. -/
theorem dpReadLoop_allWait_none (d0 addr : Nat) (ap : Bool) :
    ∀ fuel att r, r % 2 = 0 →
      dpReadLoop allWaitEnv d0 addr ap att r fuel = none := by
  intro fuel
  induction fuel with
  | zero => intro att r _; rfl
  | succ fuel ih =>
    intro att r h
    have h1 : udec r ≠ 0 := udec_ne_zero_of_even r h
    have h2 : udec (udec r) % 2 = 0 := udec_udec_even r h
    have ha : allWaitEnv.ack att % 8 = 2 := rfl
    simp only [dpReadLoop, ha]
    norm_num
    rw [if_neg h1, ih (att + 1) (udec (udec r)) h2]
    rfl

/-- C1.  Behaviour of the WAIT retry budget in `dpWrite` / `dpRead`.
When every acknowledge is WAIT the loop never returns at all (the
intended 10-attempt WAIT timeout is unreachable: the `unsigned`
retry counter is decremented twice per WAIT iteration, so starting
from 10 the `while (retries--)` test only ever sees odd values and
wraps around 0); when attempts 1..9 get WAIT and attempt 10 gets OK,
the transaction succeeds. -/
theorem dpWrite_wait_retry_behaviour (addr : Nat) (ap : Bool) (d d0 : Nat) :
    (∀ fuel, dpWrite allWaitEnv addr ap d fuel = none) ∧
    (∀ fuel, dpRead allWaitEnv d0 addr ap fuel = none) ∧
    writeSucceeded (dpWrite wait9Env addr ap d 10) = true ∧
    readSucceeded (dpRead wait9Env d0 addr ap 10) = true := by
  refine ⟨fun fuel => dpWriteLoop_allWait_none addr ap d fuel 0 10 (by norm_num),
          fun fuel => dpReadLoop_allWait_none d0 addr ap fuel 0 10 (by norm_num),
          rfl, rfl⟩

/- ------------------------------------------------------------------ -/
/- C2: the power-up acknowledge poll in begin                          -/
/- ------------------------------------------------------------------ -/

/-- `CDBGPWRUPACK | CSYSPWRUPACK` (arm_debug.cpp:39,41,95). -/
def powerAck : Nat := (1 <<< 29) ||| (1 <<< 31)

/-- The CTRLSTAT polling loop of `ARMDebug::begin` (arm_debug.cpp:96-103),
with every `dpRead` of CTRLSTAT assumed successful and returning
`reads i` (as a 32-bit word) on the i-th read.  Returns the value the
`unsigned retries` counter has after the loop.  `while (retries--)`
tests the current value and post-decrements: a nonzero test runs the
body with the decremented counter; a zero test exits the loop leaving
the counter wrapped around to `2^32 - 1`. -/
def pollLoop (reads : Nat → Nat) : Nat → Nat → Nat
  | _, 0 => udec 0
  | i, r + 1 =>
    if (reads i % U32) &&& powerAck = powerAck then r
    else pollLoop reads (i + 1) r

/-- The `if (!retries)` check after the loop (arm_debug.cpp:104-107):
`begin` proceeds past the power-up wait exactly when the final counter
is nonzero; otherwise it returns false with the power-up timeout
diagnostic. -/
def powerUpProceeds (reads : Nat → Nat) : Bool :=
  pollLoop reads 0 4 != 0

/-- C2.  The power-up poll of `begin` misbehaves at both edges of its
4-read budget: if the acknowledge bits appear only on the 4th (last
in-budget) read, the `break` leaves `retries = 0` and `begin` reports a
power-up timeout even though power-up succeeded; if the acknowledge
bits never appear, the exiting `while (retries--)` wraps the counter to
`2^32 - 1`, `!retries` is false, and `begin` proceeds as if power-up
had succeeded.  (Acknowledge on reads 1..3 behaves as specified.) -/
theorem begin_powerUp_poll_behaviour :
    powerUpProceeds (fun i => if i = 3 then powerAck else 0) = false ∧
    powerUpProceeds (fun _ => 0) = true ∧
    powerUpProceeds (fun _ => powerAck) = true := by
  refine ⟨by decide, by decide, by decide⟩

/- ------------------------------------------------------------------ -/
/- C3 and C7: dpRead failure paths                                     -/
/- ------------------------------------------------------------------ -/

/-- A target that acknowledges OK immediately but delivers the word
0xDEADBEEF (which has even population count, so even parity 0) together
with a parity bit of 1: an inconsistent data/parity pair. -/
def parityMismatchEnv : WireEnv := ⟨fun _ => 1, fun _ => 0xDEADBEEF, fun _ => 1⟩

/-- A target that answers FAULT (4) on every attempt. -/
def allFaultEnv : WireEnv := ⟨fun _ => 4, fun _ => 0, fun _ => 0⟩

/-- C3, counterexample.  A `dpRead` that fails with a parity error has
already stored the received word into the caller's out-parameter: with
the out-parameter initially 0, the failed call leaves 0xDEADBEEF — the
word of the failed transaction — in it. -/
theorem dpRead_parity_error_clobbers_out :
    dpRead parityMismatchEnv 0 0 false 1 =
      some (false, 0xDEADBEEF, WOutcome.parityError,
        [.wWrite 165 8, .wReadTrn, .wRead 3 1, .wRead 32 0xDEADBEEF,
         .wRead 1 1, .wWriteTrn, .wWrite 0 8]) ∧
    (0xDEADBEEF : Nat) ≠ 0 := by
  exact ⟨by decide, by decide⟩

/-- C3, amended.  A failing `dpRead` leaves the caller's out-parameter
unchanged unless the failure is a parity error (in which case the
received word of the failed transaction has already been stored in it
when the call returns). -/
theorem dpRead_fail_out_param (env : WireEnv) (d0 addr : Nat) (ap : Bool) :
    ∀ fuel att r b d o tr,
      dpReadLoop env d0 addr ap att r fuel = some (b, d, o, tr) → b = false →
      o = WOutcome.parityError ∨ d = d0 := by
  intro fuel
  induction fuel with
  | zero => intro att r b d o tr h _; simp [dpReadLoop] at h
  | succ fuel ih =>
    intro att r b d o tr h hb
    simp only [dpReadLoop] at h
    by_cases h1 : env.ack att % 8 = 1
    · rw [if_pos h1] at h
      by_cases hp : env.rparity att % 2 ≠ evenParity (env.rdata att % U32)
      · rw [if_pos hp] at h
        simp only [Option.some.injEq, Prod.mk.injEq] at h
        exact Or.inl h.2.2.1.symm
      · rw [if_neg hp] at h
        simp only [Option.some.injEq, Prod.mk.injEq] at h
        rw [← h.1] at hb
        exact absurd hb (by decide)
    · rw [if_neg h1] at h
      by_cases h2 : env.ack att % 8 = 2
      · rw [if_pos h2] at h
        by_cases h3 : udec r = 0
        · rw [if_pos h3] at h
          simp only [Option.some.injEq, Prod.mk.injEq] at h
          exact Or.inr h.2.1.symm
        · rw [if_neg h3] at h
          cases hrec : dpReadLoop env d0 addr ap (att + 1) (udec (udec r)) fuel with
          | none => rw [hrec] at h; simp at h
          | some res =>
            obtain ⟨rb, rd, ro, rtr⟩ := res
            rw [hrec] at h
            simp only [Option.map_some', Option.some.injEq, Prod.mk.injEq] at h
            obtain ⟨hb', hd', ho', _⟩ := h
            subst hb'
            subst hd'
            subst ho'
            exact ih (att + 1) (udec (udec r)) rb rd ro rtr hrec hb
      · rw [if_neg h2] at h
        by_cases h4 : env.ack att % 8 = 4
        · rw [if_pos h4] at h
          simp only [Option.some.injEq, Prod.mk.injEq] at h
          exact Or.inr h.2.1.symm
        · rw [if_neg h4] at h
          simp only [Option.some.injEq, Prod.mk.injEq] at h
          exact Or.inr h.2.1.symm

/-- Witness for the amended C3 at a concrete failing (FAULT) read. -/
theorem dpRead_fail_out_param_witness :
    WOutcome.fault = WOutcome.parityError ∨ (7 : Nat) = 7 :=
  dpRead_fail_out_param allFaultEnv 7 0 false 1 0 10 false 7 WOutcome.fault
    [.wWrite 165 8, .wReadTrn, .wRead 3 4, .wWriteTrn, .wWrite 0 8]
    (by decide) rfl

/-- C7.  A `dpRead` whose received parity bit mismatches the even parity
of the received word fails with a parity error, and its wire trace still
ends with the write-turnaround followed by the 8 trailing idle bits, so
the bus is left framed for the next transaction.  The first conjunct
computes the whole call for a mismatch on the first serviced attempt;
the second shows every parity-error result, wherever the mismatch
happens in the retry sequence, ends its trace with the turnaround and
the idle-bit write. -/
theorem dpRead_parity_mismatch_drains (env : WireEnv) (d0 addr : Nat) (ap : Bool) :
    (∀ fuel, env.ack 0 % 8 = 1 →
      env.rparity 0 % 2 ≠ evenParity (env.rdata 0 % U32) →
      dpRead env d0 addr ap (fuel + 1) =
        some (false, env.rdata 0 % U32, WOutcome.parityError,
          [.wWrite (packHeader addr ap true) 8, .wReadTrn, .wRead 3 1,
           .wRead 32 (env.rdata 0 % U32), .wRead 1 (env.rparity 0 % 2),
           .wWriteTrn, .wWrite 0 8])) ∧
    (∀ fuel att r b d tr,
      dpReadLoop env d0 addr ap att r fuel = some (b, d, WOutcome.parityError, tr) →
      b = false ∧ ∃ front, tr = front ++ [.wWriteTrn, .wWrite 0 8]) := by
  constructor
  · intro fuel h1 h2
    simp only [dpRead, dpReadLoop, h1, if_pos, if_true]
    norm_num
    exact h2
  · intro fuel
    induction fuel with
    | zero => intro att r b d tr h; simp [dpReadLoop] at h
    | succ fuel ih =>
      intro att r b d tr h
      simp only [dpReadLoop] at h
      by_cases h1 : env.ack att % 8 = 1
      · rw [if_pos h1] at h
        by_cases hp : env.rparity att % 2 ≠ evenParity (env.rdata att % U32)
        · rw [if_pos hp] at h
          simp only [Option.some.injEq, Prod.mk.injEq] at h
          refine ⟨h.1.symm, ⟨[.wWrite (packHeader addr ap true) 8, .wReadTrn,
            .wRead 3 (env.ack att % 8), .wRead 32 (env.rdata att % U32),
            .wRead 1 (env.rparity att % 2)], ?_⟩⟩
          rw [← h.2.2.2]
          simp
        · rw [if_neg hp] at h
          simp only [Option.some.injEq, Prod.mk.injEq] at h
          exact absurd h.2.2.1 (by decide)
      · rw [if_neg h1] at h
        by_cases h2 : env.ack att % 8 = 2
        · rw [if_pos h2] at h
          by_cases h3 : udec r = 0
          · rw [if_pos h3] at h
            simp only [Option.some.injEq, Prod.mk.injEq] at h
            exact absurd h.2.2.1 (by decide)
          · rw [if_neg h3] at h
            cases hrec : dpReadLoop env d0 addr ap (att + 1) (udec (udec r)) fuel with
            | none => rw [hrec] at h; simp at h
            | some res =>
              obtain ⟨rb, rd, ro, rtr⟩ := res
              rw [hrec] at h
              simp only [Option.map_some', Option.some.injEq, Prod.mk.injEq] at h
              obtain ⟨hb', hd', ho', htr'⟩ := h
              subst hb'
              subst hd'
              subst ho'
              obtain ⟨hbf, front, hfr⟩ := ih att.succ (udec (udec r)) rb rd rtr hrec
              refine ⟨hbf, ⟨[.wWrite (packHeader addr ap true) 8, .wReadTrn,
                .wRead 3 (env.ack att % 8), .wWriteTrn, .wWrite 0 8] ++ front, ?_⟩⟩
              rw [← htr', hfr]
              simp
        · rw [if_neg h2] at h
          by_cases h4 : env.ack att % 8 = 4
          · rw [if_pos h4] at h
            simp only [Option.some.injEq, Prod.mk.injEq] at h
            exact absurd h.2.2.1 (by decide)
          · rw [if_neg h4] at h
            simp only [Option.some.injEq, Prod.mk.injEq] at h
            exact absurd h.2.2.1 (by decide)

/-- Witness for C7 at a concrete mismatching read. -/
theorem dpRead_parity_mismatch_drains_witness :
    dpRead parityMismatchEnv 5 4 true 1 =
      some (false, 0xDEADBEEF, WOutcome.parityError,
        [.wWrite (packHeader 4 true true) 8, .wReadTrn, .wRead 3 1,
         .wRead 32 0xDEADBEEF, .wRead 1 1, .wWriteTrn, .wWrite 0 8]) :=
  (dpRead_parity_mismatch_drains parityMismatchEnv 5 4 true).1 0
    (by decide) (by decide)

/- ------------------------------------------------------------------ -/
/- AP layer and memory facade, over the DP transaction interface       -/
/- ------------------------------------------------------------------ -/

/-- One DP-layer transaction as issued by the AP layer / memory facade:
the register address passed to `dpWrite`/`dpRead`, the `APnDP` flag,
the direction, and (for writes) the written word. -/
structure DPTxn where
  addr : Nat
  APnDP : Bool
  isRead : Bool
  data : Nat
deriving DecidableEq, Repr

/-- The outcome the lower (wire) layer produces for one DP transaction:
its boolean result and, for a successful read, the delivered word. -/
structure DPOutcome where
  ok : Bool
  value : Nat

/-- The persistent state of the `ARMDebug` object seen by these layers:
the selection cache `cache.select` (arm_debug.h / arm_debug.cpp:63,193-198). -/
structure ApState where
  select : Nat
deriving DecidableEq, Repr

/-- DP register `SELECT` (arm_debug.cpp:33). -/
def SELECT_REG : Nat := 0x8

/-- AHB-AP register offsets (arm_debug.cpp:46-51). -/
def MEM_CSW : Nat := 0x00

/-- Target address register offset. -/
def MEM_TAR : Nat := 0x04

/-- Data read/write register offset. -/
def MEM_DRW : Nat := 0x0C

/-- The value `(accessPort << 24) | (addr & 0xF0)` computed by
`ARMDebug::dpSelect` (arm_debug.cpp:193), in 32-bit arithmetic. -/
def selectValue (accessPort addr : Nat) : Nat :=
  ((accessPort <<< 24) % U32) ||| (addr &&& 0xF0)

/-- The sentinel written into the cache by `begin` (arm_debug.cpp:63). -/
def invalidSelect : Nat := 0xFFFFFFFF

/-- `ARMDebug::dpSelect` (arm_debug.cpp:186-200) over the DP interface:
`env k` is the outcome of the k-th DP transaction of the run (k counts
transactions already issued before this call).  Returns the boolean
result, the new object state, and the list of DP transactions issued. -/
def dpSelectT (env : Nat → DPOutcome) (k : Nat) (s : ApState)
    (accessPort addr : Nat) : Bool × ApState × List DPTxn :=
  let select := selectValue accessPort addr
  if select ≠ s.select then
    if (env k).ok then (true, ⟨select⟩, [⟨SELECT_REG, false, false, select⟩])
    else (false, s, [⟨SELECT_REG, false, false, select⟩])
  else (true, s, [])

/-- `ARMDebug::apWrite` (arm_debug.cpp:176-179): select, then a DP write
with APnDP = true. -/
def apWriteT (env : Nat → DPOutcome) (k : Nat) (s : ApState)
    (accessPort addr data : Nat) : Bool × ApState × List DPTxn :=
  match dpSelectT env k s accessPort addr with
  | (false, s1, t1) => (false, s1, t1)
  | (true, s1, t1) =>
    ((env (k + t1.length)).ok, s1, t1 ++ [⟨addr, true, false, data⟩])

/-- `ARMDebug::apRead` (arm_debug.cpp:181-184): select, then a DP read
with APnDP = true.  `d0` is the current value of the caller's variable
bound to the out-parameter; the returned `Nat` is its value after the
call (the DP interface delivers a word only on success). -/
def apReadT (env : Nat → DPOutcome) (k : Nat) (s : ApState)
    (accessPort addr d0 : Nat) : Bool × Nat × ApState × List DPTxn :=
  match dpSelectT env k s accessPort addr with
  | (false, s1, t1) => (false, d0, s1, t1)
  | (true, s1, t1) =>
    let o := env (k + t1.length)
    (o.ok, if o.ok then o.value else d0, s1, t1 ++ [⟨addr, true, true, 0⟩])

/-- The `while (count)` loop of the vectorized `ARMDebug::memStore`
(arm_debug.cpp:143-152): one `apWrite(0, MEM_DRW, *data)` per word,
aborting on the first failure.  The local `addr++` of the C++ is used
only for the trace log, so it does not appear here. -/
def memStoreLoop (env : Nat → DPOutcome) (k : Nat) (s : ApState) :
    List Nat → Bool × ApState × List DPTxn
  | [] => (true, s, [])
  | d :: rest =>
    match apWriteT env k s 0 MEM_DRW d with
    | (false, s1, t1) => (false, s1, t1)
    | (true, s1, t1) =>
      match memStoreLoop env (k + t1.length) s1 rest with
      | (b2, s2, t2) => (b2, s2, t1 ++ t2)

/-- Vectorized `ARMDebug::memStore` (arm_debug.cpp:138-155): one TAR
write, then the word loop.  `data` plays the role of the C++ buffer
pointer plus count (`count = data.length`). -/
def memStoreV (env : Nat → DPOutcome) (k : Nat) (s : ApState)
    (addr : Nat) (data : List Nat) : Bool × ApState × List DPTxn :=
  match apWriteT env k s 0 MEM_TAR addr with
  | (false, s1, t1) => (false, s1, t1)
  | (true, s1, t1) =>
    match memStoreLoop env (k + t1.length) s1 data with
    | (b2, s2, t2) => (b2, s2, t1 ++ t2)

/-- Single-word `ARMDebug::memStore` (arm_debug.cpp:128-131):
`return memStore(addr, &data, 1);`. -/
def memStore1 (env : Nat → DPOutcome) (k : Nat) (s : ApState)
    (addr data : Nat) : Bool × ApState × List DPTxn :=
  memStoreV env k s addr [data]

/-- The `while (count)` loop of the vectorized `ARMDebug::memLoad`
(arm_debug.cpp:162-171).  `buf` holds the current contents of the
caller's buffer; cells are overwritten in order as reads succeed, and
the loop aborts on the first failure leaving the remaining cells
untouched. -/
def memLoadLoop (env : Nat → DPOutcome) (k : Nat) (s : ApState) :
    List Nat → Bool × List Nat × ApState × List DPTxn
  | [] => (true, [], s, [])
  | c :: rest =>
    match apReadT env k s 0 MEM_DRW c with
    | (false, v, s1, t1) => (false, v :: rest, s1, t1)
    | (true, v, s1, t1) =>
      match memLoadLoop env (k + t1.length) s1 rest with
      | (b2, buf2, s2, t2) => (b2, v :: buf2, s2, t1 ++ t2)

/-- Vectorized `ARMDebug::memLoad` (arm_debug.cpp:157-174). -/
def memLoadV (env : Nat → DPOutcome) (k : Nat) (s : ApState)
    (addr : Nat) (buf : List Nat) : Bool × List Nat × ApState × List DPTxn :=
  match apWriteT env k s 0 MEM_TAR addr with
  | (false, s1, t1) => (false, buf, s1, t1)
  | (true, s1, t1) =>
    match memLoadLoop env (k + t1.length) s1 buf with
    | (b2, buf2, s2, t2) => (b2, buf2, s2, t1 ++ t2)

/-- Single-word `ARMDebug::memLoad` (arm_debug.cpp:133-136):
`return memLoad(addr, &data, 1);`. -/
def memLoad1 (env : Nat → DPOutcome) (k : Nat) (s : ApState)
    (addr d0 : Nat) : Bool × List Nat × ApState × List DPTxn :=
  memLoadV env k s addr [d0]

/-- An oracle under which every DP transaction succeeds, reading 0. -/
def allOkEnv : Nat → DPOutcome := fun _ => ⟨true, 0⟩

/-- An oracle under which exactly the j-th DP transaction fails. -/
def failAtEnv (j : Nat) : Nat → DPOutcome := fun k => ⟨k != j, 0⟩

/-- Is a DP transaction a write to the DP SELECT register? -/
def isSelectWrite (t : DPTxn) : Bool :=
  !t.APnDP && !t.isRead && t.addr == SELECT_REG

/-- Number of SELECT transactions in a trace. -/
def countSelect (tr : List DPTxn) : Nat := (tr.filter isSelectWrite).length

/- ------------------------------------------------------------------ -/
/- C6: the SELECT cache                                                -/
/- ------------------------------------------------------------------ -/

/-- C6.  The select-caching invariant of `dpSelect`: a call whose
computed select value equals the cache issues no transaction and leaves
the state unchanged; a cache miss issues exactly one SELECT write,
updating the cache to the transmitted value on success and leaving it
untouched on failure; and two consecutive AP writes to the same access
port and bank issue exactly one SELECT transaction between them. -/
theorem dpSelect_cache (env : Nat → DPOutcome) (k : Nat) (s : ApState)
    (ap addr addr2 d1 d2 : Nat) :
    (s.select = selectValue ap addr → dpSelectT env k s ap addr = (true, s, [])) ∧
    (s.select ≠ selectValue ap addr → (env k).ok = true →
      dpSelectT env k s ap addr =
        (true, ⟨selectValue ap addr⟩,
         [⟨SELECT_REG, false, false, selectValue ap addr⟩])) ∧
    (s.select ≠ selectValue ap addr → (env k).ok = false →
      dpSelectT env k s ap addr =
        (false, s, [⟨SELECT_REG, false, false, selectValue ap addr⟩])) ∧
    (∀ (t1 t2 : List DPTxn) (b1 b2 : Bool) (s1 s2 : ApState),
      s.select ≠ selectValue ap addr →
      addr2 &&& 0xF0 = addr &&& 0xF0 →
      apWriteT allOkEnv k s ap addr d1 = (b1, s1, t1) →
      apWriteT allOkEnv (k + t1.length) s1 ap addr2 d2 = (b2, s2, t2) →
      b1 = true ∧ b2 = true ∧ countSelect (t1 ++ t2) = 1) := by
  refine ⟨?_, ?_, ?_, ?_⟩
  · intro h
    simp [dpSelectT, h]
  · intro h hok
    simp [dpSelectT, Ne.symm h, hok]
  · intro h hok
    simp [dpSelectT, Ne.symm h, hok]
  · intro t1 t2 b1 b2 s1 s2 hne hbank h1 h2
    have e1 : apWriteT allOkEnv k s ap addr d1 =
        (true, ⟨selectValue ap addr⟩,
         [⟨SELECT_REG, false, false, selectValue ap addr⟩,
          ⟨addr, true, false, d1⟩]) := by
      unfold apWriteT
      have hd : dpSelectT allOkEnv k s ap addr =
          (true, ⟨selectValue ap addr⟩,
           [⟨SELECT_REG, false, false, selectValue ap addr⟩]) := by
        simp [dpSelectT, Ne.symm hne, allOkEnv]
      rw [hd]
      rfl
    rw [e1] at h1
    simp only [Prod.mk.injEq] at h1
    obtain ⟨hb1, hs1, ht1⟩ := h1
    subst hb1
    subst hs1
    subst ht1
    have hv2 : selectValue ap addr2 = selectValue ap addr := by
      unfold selectValue
      rw [hbank]
    have e2 : apWriteT allOkEnv (k + 2) ⟨selectValue ap addr⟩ ap addr2 d2 =
        (true, ⟨selectValue ap addr⟩, [⟨addr2, true, false, d2⟩]) := by
      unfold apWriteT
      have hd : dpSelectT allOkEnv (k + 2) ⟨selectValue ap addr⟩ ap addr2 =
          (true, ⟨selectValue ap addr⟩, []) := by
        simp [dpSelectT, hv2]
      rw [hd]
      rfl
    rw [show ([⟨SELECT_REG, false, false, selectValue ap addr⟩,
      ⟨addr, true, false, d1⟩] : List DPTxn).length = 2 from rfl] at h2
    rw [e2] at h2
    simp only [Prod.mk.injEq] at h2
    obtain ⟨hb2, _, ht2⟩ := h2
    subst hb2
    subst ht2
    refine ⟨rfl, rfl, ?_⟩
    simp [countSelect, isSelectWrite, SELECT_REG]

/-- Witness for C6: concrete miss-then-hit, miss-then-fail, pure hit,
and a consecutive same-bank pair issuing one SELECT. -/
theorem dpSelect_cache_witness :
    dpSelectT allOkEnv 0 ⟨0xFFFFFFFF⟩ 0 0x04 =
      (true, ⟨0⟩, [⟨SELECT_REG, false, false, 0⟩]) ∧
    dpSelectT (failAtEnv 0) 0 ⟨0xFFFFFFFF⟩ 0 0x04 =
      (false, ⟨0xFFFFFFFF⟩, [⟨SELECT_REG, false, false, 0⟩]) ∧
    dpSelectT allOkEnv 5 ⟨0⟩ 0 0x04 = (true, ⟨0⟩, []) ∧
    (true = true ∧ true = true ∧
      countSelect ([⟨SELECT_REG, false, false, 0⟩, ⟨0x04, true, false, 0x11⟩] ++
        [⟨0x0C, true, false, 0x22⟩]) = 1) := by
  refine ⟨?_, ?_, ?_, ?_⟩
  · exact (dpSelect_cache allOkEnv 0 ⟨0xFFFFFFFF⟩ 0 0x04 0x0C 0x11 0x22).2.1
      (by decide) (by decide)
  · exact (dpSelect_cache (failAtEnv 0) 0 ⟨0xFFFFFFFF⟩ 0 0x04 0x0C 0x11 0x22).2.2.1
      (by decide) (by decide)
  · exact (dpSelect_cache allOkEnv 5 ⟨0⟩ 0 0x04 0x0C 0x11 0x22).1 (by decide)
  · exact (dpSelect_cache allOkEnv 0 ⟨0xFFFFFFFF⟩ 0 0x04 0x0C 0x11 0x22).2.2.2
      [⟨SELECT_REG, false, false, 0⟩, ⟨0x04, true, false, 0x11⟩]
      [⟨0x0C, true, false, 0x22⟩] true true ⟨0⟩ ⟨0⟩
      (by decide) (by decide) (by decide) (by decide)

/- ------------------------------------------------------------------ -/
/- C8, C9: the memory facade                                           -/
/- ------------------------------------------------------------------ -/

theorem memStoreLoop_allOk :
    ∀ (data : List Nat) (k : Nat),
      memStoreLoop allOkEnv k ⟨0⟩ data =
        (true, ⟨0⟩, data.map (fun d => ⟨MEM_DRW, true, false, d⟩)) := by
  intro data
  induction data with
  | nil => intro k; rfl
  | cons d rest ih =>
    intro k
    have hw : apWriteT allOkEnv k ⟨0⟩ 0 MEM_DRW d =
        (true, ⟨0⟩, [⟨MEM_DRW, true, false, d⟩]) := rfl
    simp only [memStoreLoop, hw, List.length_cons, List.length_nil,
      Nat.zero_add, ih (k + 1)]
    rfl

theorem memStoreLoop_failAt :
    ∀ (data : List Nat) (k j : Nat), j < data.length →
      memStoreLoop (failAtEnv (k + j)) k ⟨0⟩ data =
        (false, ⟨0⟩,
         (data.take (j + 1)).map (fun d => ⟨MEM_DRW, true, false, d⟩)) := by
  intro data
  induction data with
  | nil => intro k j h; simp at h
  | cons d rest ih =>
    intro k j h
    cases j with
    | zero =>
      have hw : apWriteT (failAtEnv (k + 0)) k ⟨0⟩ 0 MEM_DRW d =
          ((k != k + 0), ⟨0⟩, [⟨MEM_DRW, true, false, d⟩]) := rfl
      have hkk : (k != k + 0) = false := by simp
      rw [hkk] at hw
      simp only [memStoreLoop, hw]
      rfl
    | succ j =>
      have hw : apWriteT (failAtEnv (k + (j + 1))) k ⟨0⟩ 0 MEM_DRW d =
          ((k != k + (j + 1)), ⟨0⟩, [⟨MEM_DRW, true, false, d⟩]) := rfl
      have hkk : (k != k + (j + 1)) = true := by
        simp only [bne_iff_ne]
        omega
      rw [hkk] at hw
      have hplus : k + (j + 1) = (k + 1) + j := by omega
      rw [hplus] at hw ⊢
      have hrest := ih (k + 1) j (by simp at h; omega)
      simp only [memStoreLoop, hw, List.length_cons, List.length_nil,
        Nat.zero_add, hrest]
      rfl

/-- C8.  The vectorized `memStore` in the post-`begin` state (cache
select = 0): it issues exactly one TAR write, followed only by DRW
writes, one per word in order; if every DRW write succeeds there are
exactly `count` of them and the call returns true; if the DRW write for
word j+1 fails (transaction j+1 of the run, transaction 0 being the TAR
write), the call returns false having issued exactly j+1 DRW writes,
not attempting the remaining words. -/
theorem memStore_trace (s : ApState) (addr : Nat) (data : List Nat)
    (hs : s.select = 0) :
    memStoreV allOkEnv 0 s addr data =
      (true, s, ⟨MEM_TAR, true, false, addr⟩ ::
        data.map (fun d => ⟨MEM_DRW, true, false, d⟩)) ∧
    (∀ j, j < data.length →
      memStoreV (failAtEnv (j + 1)) 0 s addr data =
        (false, s, ⟨MEM_TAR, true, false, addr⟩ ::
          (data.take (j + 1)).map (fun d => ⟨MEM_DRW, true, false, d⟩))) := by
  obtain ⟨sel⟩ := s
  simp only at hs
  subst hs
  constructor
  · have hw : apWriteT allOkEnv 0 ⟨0⟩ 0 MEM_TAR addr =
        (true, ⟨0⟩, [⟨MEM_TAR, true, false, addr⟩]) := rfl
    simp only [memStoreV, hw, List.length_cons, List.length_nil,
      Nat.zero_add, memStoreLoop_allOk data 1]
    rfl
  · intro j hj
    have hw : apWriteT (failAtEnv (j + 1)) 0 ⟨0⟩ 0 MEM_TAR addr =
        ((0 != j + 1), ⟨0⟩, [⟨MEM_TAR, true, false, addr⟩]) := rfl
    have h0 : ((0 : Nat) != j + 1) = true := by simp
    rw [h0] at hw
    have hfa : failAtEnv (j + 1) = failAtEnv (1 + j) := by
      rw [Nat.add_comm]
    rw [hfa] at hw ⊢
    simp only [memStoreV, hw, List.length_cons, List.length_nil,
      Nat.zero_add, memStoreLoop_failAt data 1 j hj]
    rfl

/-- Witness for C8: the spec scenario `memoryStore(0x20000000,
[0x11,0x22,0x33])`, all-success and forced failure on the second word. -/
theorem memStore_trace_witness :
    memStoreV allOkEnv 0 ⟨0⟩ 0x20000000 [0x11, 0x22, 0x33] =
      (true, ⟨0⟩,
       [⟨MEM_TAR, true, false, 0x20000000⟩, ⟨MEM_DRW, true, false, 0x11⟩,
        ⟨MEM_DRW, true, false, 0x22⟩, ⟨MEM_DRW, true, false, 0x33⟩]) ∧
    memStoreV (failAtEnv 2) 0 ⟨0⟩ 0x20000000 [0x11, 0x22, 0x33] =
      (false, ⟨0⟩,
       [⟨MEM_TAR, true, false, 0x20000000⟩, ⟨MEM_DRW, true, false, 0x11⟩,
        ⟨MEM_DRW, true, false, 0x22⟩]) :=
  ⟨(memStore_trace ⟨0⟩ 0x20000000 [0x11, 0x22, 0x33] rfl).1,
   (memStore_trace ⟨0⟩ 0x20000000 [0x11, 0x22, 0x33] rfl).2 1 (by decide)⟩

/-- C9.  The single-word `memStore` / `memLoad` delegate to the
vectorized forms with a one-element buffer (count = 1): same result,
same state, same transaction sequence. -/
theorem memSingle_delegates (env : Nat → DPOutcome) (k : Nat) (s : ApState)
    (addr d d0 : Nat) :
    memStore1 env k s addr d = memStoreV env k s addr [d] ∧
    memLoad1 env k s addr d0 = memLoadV env k s addr [d0] :=
  ⟨rfl, rfl⟩

/- ------------------------------------------------------------------ -/
/- C10: the select sentinel                                            -/
/- ------------------------------------------------------------------ -/

theorem and_two_pow_sub_one (x k : Nat) : x &&& (2 ^ k - 1) = x % 2 ^ k := by
  apply Nat.eq_of_testBit_eq
  intro i
  rw [Nat.testBit_and, Nat.testBit_two_pow_sub_one, Nat.testBit_mod_two_pow]
  cases Nat.testBit x i <;> simp

theorem or_and_distrib_mask (a b m : Nat) :
    (a ||| b) &&& m = (a &&& m) ||| (b &&& m) := by
  apply Nat.eq_of_testBit_eq
  intro i
  rw [Nat.testBit_and, Nat.testBit_or, Nat.testBit_or, Nat.testBit_and,
    Nat.testBit_and]
  cases Nat.testBit a i <;> cases Nat.testBit b i <;>
    cases Nat.testBit m i <;> rfl

/-- C10.  The computed select value always has its low four bits zero,
so it can never collide with the all-ones sentinel that `begin` leaves
in the cache; hence the first `dpSelect` after initialization always
issues a real SELECT transaction, whatever the oracle answers. -/
theorem selectValue_sentinel (ap addr : Nat) :
    selectValue ap addr % 16 = 0 ∧
    selectValue ap addr ≠ invalidSelect ∧
    (∀ (env : Nat → DPOutcome) (k : Nat),
      (dpSelectT env k ⟨invalidSelect⟩ ap addr).2.2 =
        [⟨SELECT_REG, false, false, selectValue ap addr⟩]) := by
  have hmod : selectValue ap addr % 16 = 0 := by
    have h15 : (15 : Nat) = 2 ^ 4 - 1 := by norm_num
    have h16 : (16 : Nat) = 2 ^ 4 := by norm_num
    have hA : ((ap <<< 24) % U32) &&& 15 = 0 := by
      rw [h15, and_two_pow_sub_one, ← h16]
      have hdvd : (16 : Nat) ∣ U32 := by norm_num [U32]
      rw [Nat.mod_mod_of_dvd _ hdvd, Nat.shiftLeft_eq]
      have : ap * 2 ^ 24 = (ap * 2 ^ 20) * 16 := by ring
      rw [this, Nat.mul_mod_left]
    have hB : (addr &&& 0xF0) &&& 15 = 0 := by
      rw [Nat.and_assoc]
      have h240 : (240 : Nat) &&& 15 = 0 := rfl
      rw [h240, Nat.and_zero]
    have : selectValue ap addr &&& 15 = 0 := by
      unfold selectValue
      rw [or_and_distrib_mask, hA, hB]
      rfl
    rw [h16, ← and_two_pow_sub_one, ← h15]
    exact this
  refine ⟨hmod, ?_, ?_⟩
  · intro h
    rw [h] at hmod
    norm_num [invalidSelect] at hmod
  · intro env k
    have hne : selectValue ap addr ≠ invalidSelect := by
      intro h
      rw [h] at hmod
      norm_num [invalidSelect] at hmod
    unfold dpSelectT
    rw [if_pos hne]
    by_cases ho : (env k).ok
    · rw [if_pos ho]
    · rw [if_neg ho]
